import Mathlib

/-!
Shallow embedding of the core logic of the `google-scholar-tool` repository:
query-string construction (`scholar.build_query`), response-to-record mapping
(`scholar.search_publications`, `scholar.get_author_details`) and citation
formatting (`books.Book`).  Python strings are modelled by `String`, Python
`None`-able values by `Option`, Python exceptions by `Except`/`Option`.
-/

/-- Model of Python `str.lower()` (ASCII case folding, which is all the
repository relies on). -/
def pyLower (s : String) : String :=
  String.mk (s.data.map Char.toLower)

/-- Model of Python `s[:n]` on strings. -/
def strTake (s : String) (n : Nat) : String :=
  String.mk (s.data.take n)

/-- Model of Python `c in s` for a single-character needle. -/
def strContainsChar (s : String) (c : Char) : Bool :=
  s.data.contains c

/-- Model of Python `s.endswith(".")`. -/
def endsWithPeriod (s : String) : Bool :=
  match s.data.getLast? with
  | some c => c = '.'
  | none => false

/-- Model of Python `sep.join(parts)`. -/
def joinSep (sep : String) : List String → String
  | [] => ""
  | [a] => a
  | a :: rest => a ++ sep ++ joinSep sep rest

/-- Model of Python `"".join(parts)` (and of plain suffix concatenation). -/
def strJoin : List String → String
  | [] => ""
  | a :: rest => a ++ strJoin rest

/-- Helper for the model of Python `str.split()`: accumulate the current word
(in reverse) while scanning the character list. -/
def splitWsAux : List Char → List Char → List String
  | [], acc => if acc = [] then [] else [String.mk acc.reverse]
  | c :: cs, acc =>
    if c.isWhitespace then
      if acc = [] then splitWsAux cs []
      else String.mk acc.reverse :: splitWsAux cs []
    else splitWsAux cs (c :: acc)

/-- Model of Python `str.split()` with no arguments: split on runs of
whitespace, discarding empty pieces. -/
def pySplit (s : String) : List String :=
  splitWsAux s.data []

/-- Model of Python `s[0]` on the (always non-empty) pieces returned by
`str.split()`; total, returning `""` on the unreachable empty string. -/
def strHead (s : String) : String :=
  match s.data with
  | [] => ""
  | c :: _ => String.mk [c]

/-- From `scholar.build_query` lines 118-124: an exact phrase is quoted
exactly when it contains a space character (`" " in phrase`). -/
def quoteIfSpace (phrase : String) : String :=
  if strContainsChar phrase ' ' then "\"" ++ phrase ++ "\"" else phrase

/-- From `scholar.build_query` lines 107-124: the `query_parts` list — the
term group (single term bare, several terms `" OR "`-joined in parentheses)
followed by the (possibly quoted) exact phrases.  An absent (`None`) phrase
list and an empty one behave identically in the source, so both are the
empty list here. -/
def queryParts (terms exact_phrases : List String) : List String :=
  (match terms with
   | [] => []
   | [t] => [t]
   | ts => ["(" ++ joinSep " OR " ts ++ ")"])
  ++ exact_phrases.map quoteIfSpace

/-- From `scholar.build_query` line 127: `" AND ".join(query_parts)` when
there is more than one part, else `"".join(query_parts)`. -/
def termsPhrasesPart (terms exact_phrases : List String) : String :=
  let parts := queryParts terms exact_phrases
  if parts.length > 1 then joinSep " AND " parts else strJoin parts

/-- From `scholar.build_query` lines 107-139.  `intitle` is `Option` to model
the `None` default; Python truthiness makes `some ""` behave like `none`.
The exclusion loop is the source's `for term in exclude_terms: query += f" -{term}"`. -/
def build_query (terms exact_phrases exclude_terms : List String)
    (intitle : Option String) : String :=
  let query := termsPhrasesPart terms exact_phrases
  let query :=
    match intitle with
    | some t => if t ≠ "" then query ++ " intitle:\"" ++ t ++ "\"" else query
    | none => query
  exclude_terms.foldl (fun q term => q ++ " -" ++ term) query

/-- The exclusion suffix of `build_query`: one literal `" -<term>"` per
excluded term, concatenated in order. -/
def exclusionsSuffix (exclude_terms : List String) : String :=
  strJoin (exclude_terms.map (fun term => " -" ++ term))

/-- From `books.Book` (dataclass): a Google Books volume.  Optional Python
fields are `Option`. -/
structure Book where
  title : String
  authors : List String
  publisher : Option String
  published_date : Option String
  description : Option String
  page_count : Option Int
  categories : List String
  preview_link : Option String
  info_link : Option String
  isbn_10 : Option String
  isbn_13 : Option String

/-- From `books.Book.year`: the first 4 characters of `published_date`, or
`"n.d."` when it is `None`/empty (Python truthiness). -/
def Book.year (b : Book) : String :=
  match b.published_date with
  | some d => if d ≠ "" then strTake d 4 else "n.d."
  | none => "n.d."

/-- From `books.Book.isbn`: `isbn_13 or isbn_10`, with Python truthiness
(an empty `isbn_13` falls through to `isbn_10`). -/
def Book.isbn (b : Book) : Option String :=
  match b.isbn_13 with
  | some i => if i ≠ "" then some i else b.isbn_10
  | none => b.isbn_10

/-- From the `publisher = self.publisher or "Publisher unknown"` lines of the
four `cite_*` methods. -/
def Book.publisherOrDefault (b : Book) : String :=
  match b.publisher with
  | some p => if p ≠ "" then p else "Publisher unknown"
  | none => "Publisher unknown"

/-- From `books.Book._format_authors_apa`, per-author step: 2+ space-separated
tokens become `Last, F. M.` (initials space-separated); a single token is used
verbatim. -/
def fmtAuthorApa (author : String) : String :=
  let parts := pySplit author
  if parts.length ≥ 2 then
    parts.getLastD "" ++ ", " ++
      joinSep " " (parts.dropLast.map (fun p => strHead p ++ "."))
  else author

/-- From `books.Book._format_authors_apa`, join step: 0 authors →
`"Unknown Author"`; 1 → itself; 2 → `A & B`; 3+ → `", "`-joined with `", & "`
before the last. -/
def Book.format_authors_apa (b : Book) : String :=
  match b.authors.map fmtAuthorApa with
  | [] => "Unknown Author"
  | [f] => f
  | [f, g] => f ++ " & " ++ g
  | fs => joinSep ", " fs.dropLast ++ ", & " ++ fs.getLastD ""

/-- From `books.Book._format_authors_mla` lines 78-84: invert the first of
several authors to `Last, Given...`; a name with fewer than 2 tokens falls
back to `first[0]` (the sole split token; `dflt` stands in for Python's
out-of-range error on a whitespace-only name). -/
def mlaInvertFirst (author dflt : String) : String :=
  let first := pySplit author
  if first.length ≥ 2 then
    first.getLastD "" ++ ", " ++ joinSep " " first.dropLast
  else first.headD dflt

/-- From `books.Book._format_authors_mla`: 0 authors → `"Unknown Author"`;
1 → inverted (single token verbatim); 2 → `First-inverted, and Second`;
3+ → `First-inverted, et al.`. -/
def Book.format_authors_mla (b : Book) : String :=
  match b.authors with
  | [] => "Unknown Author"
  | [a] =>
    let parts := pySplit a
    if parts.length ≥ 2 then
      parts.getLastD "" ++ ", " ++ joinSep " " parts.dropLast
    else a
  | [a, second] => mlaInvertFirst a a ++ ", and " ++ second
  | a :: _ => mlaInvertFirst a a ++ ", et al."

/-- From `books.Book._format_authors_chicago`: delegates to the MLA
formatter. -/
def Book.format_authors_chicago (b : Book) : String :=
  b.format_authors_mla

/-- From `books.Book._format_authors_harvard`, per-author step: like APA but
initials concatenated with no separating space. -/
def fmtAuthorHarvard (author : String) : String :=
  let parts := pySplit author
  if parts.length ≥ 2 then
    parts.getLastD "" ++ ", " ++
      strJoin (parts.dropLast.map (fun p => strHead p ++ "."))
  else author

/-- From `books.Book._format_authors_harvard`, join step: 2 → `A and B`;
3+ → `", "`-joined with `" and "` (no comma) before the last. -/
def Book.format_authors_harvard (b : Book) : String :=
  match b.authors.map fmtAuthorHarvard with
  | [] => "Unknown Author"
  | [f] => f
  | [f, g] => f ++ " and " ++ g
  | fs => joinSep ", " fs.dropLast ++ " and " ++ fs.getLastD ""

/-- From `books.Book.cite_apa`: `{authors} ({year}). {title}. {publisher}.`. -/
def Book.cite_apa (b : Book) : String :=
  let authors := b.format_authors_apa
  let publisher := b.publisherOrDefault
  authors ++ " (" ++ b.year ++ "). " ++ b.title ++ ". " ++ publisher ++ "."

/-- From `books.Book.cite_mla`: `{authors}{sep}{title}. {publisher}, {year}.`
where `sep` is `" "` when the author string already ends in a period. -/
def Book.cite_mla (b : Book) : String :=
  let authors := b.format_authors_mla
  let publisher := b.publisherOrDefault
  let sep := if endsWithPeriod authors then " " else ". "
  authors ++ sep ++ b.title ++ ". " ++ publisher ++ ", " ++ b.year ++ "."

/-- From `books.Book.cite_chicago`: same template as MLA but going through
`format_authors_chicago`. -/
def Book.cite_chicago (b : Book) : String :=
  let authors := b.format_authors_chicago
  let publisher := b.publisherOrDefault
  let sep := if endsWithPeriod authors then " " else ". "
  authors ++ sep ++ b.title ++ ". " ++ publisher ++ ", " ++ b.year ++ "."

/-- From `books.Book.cite_harvard`: `{authors} ({year}) {title}. {publisher}.`. -/
def Book.cite_harvard (b : Book) : String :=
  let authors := b.format_authors_harvard
  let publisher := b.publisherOrDefault
  authors ++ " (" ++ b.year ++ ") " ++ b.title ++ ". " ++ publisher ++ "."

/-- The dictionary keys of `books.Book.cite`, in insertion order. -/
def validStyles : List String := ["apa", "mla", "chicago", "harvard"]

/-- From `books.Book.cite`: dispatch on `style.lower()`; an unknown style
raises `ValueError` (modelled as `Except.error`) whose message names the
style and lists the four valid options. -/
def Book.cite (b : Book) (style : String) : Except String String :=
  if pyLower style = "apa" then Except.ok b.cite_apa
  else if pyLower style = "mla" then Except.ok b.cite_mla
  else if pyLower style = "chicago" then Except.ok b.cite_chicago
  else if pyLower style = "harvard" then Except.ok b.cite_harvard
  else Except.error ("Unsupported style: " ++ style ++ ". Use: apa, mla, chicago, harvard")

/-- The concrete Book of the spec's citation round-trip example. -/
def bookJane : Book :=
  ⟨"Title", ["Jane Q. Public"], some "ACME", some "2020-05-01",
    none, none, [], none, none, none, none⟩

/-- A concrete three-author Book (publisher absent) used as a witness input. -/
def bookTrio : Book :=
  ⟨"T", ["Ann A. Alpha", "Bob B. Beta", "Carl C. Gamma"], none, none,
    none, none, [], none, none, none, none⟩

/-- A concrete two-author Book used as a witness input. -/
def bookDuo : Book :=
  ⟨"T", ["Ann A. Alpha", "Bob B. Beta"], none, none,
    none, none, [], none, none, none, none⟩

/-- From `scholar.Publication` (dataclass). -/
structure Publication where
  title : String
  authors : List String
  year : Option String
  abstract : Option String
  citations : Int
  url : Option String
  pub_url : Option String

/-- The `bib` sub-dictionary of an upstream `scholarly` publication result:
only the keys `search_publications` reads, each possibly absent. -/
structure PubBib where
  title : Option String
  author : Option (List String)
  pub_year : Option String
  abstract : Option String

/-- An upstream `scholarly.search_pubs` result item: only the keys
`search_publications` reads, each possibly absent. -/
structure PubResult where
  bib : Option PubBib
  num_citations : Option Int
  eprint_url : Option String
  pub_url : Option String

/-- From `scholar.search_publications` lines 172-181: build one `Publication`
from one upstream result, with the source's `.get` defaults
(`result.get("bib", {})`, `bib.get("title", "Unknown")`, ...). -/
def mkPublication (result : PubResult) : Publication :=
  ⟨(result.bib.bind PubBib.title).getD "Unknown",
    (result.bib.bind PubBib.author).getD [],
    result.bib.bind PubBib.pub_year,
    result.bib.bind PubBib.abstract,
    result.num_citations.getD 0,
    result.eprint_url,
    result.pub_url⟩

/-- From the loop of `scholar.search_publications` lines 167-184: pull one
result at a time; `break` as soon as `count >= limit` (after having pulled the
item that revealed it).  Returns the yielded publications together with the
number of items consumed from the upstream iterator. -/
def searchPubsLoop : List PubResult → Nat → Nat → List Publication × Nat
  | [], _, _ => ([], 0)
  | r :: rest, limit, count =>
    if count ≥ limit then ([], 1)
    else
      let p := searchPubsLoop rest limit (count + 1)
      (mkPublication r :: p.1, p.2 + 1)

/-- From `scholar.search_publications`: the upstream iterator is modelled by
the (finite) list of items it would produce in order. -/
def search_publications (results : List PubResult) (limit : Nat) :
    List Publication × Nat :=
  searchPubsLoop results limit 0

/-- A concrete upstream publication result with every key absent, used as a
witness input. -/
def pubR0 : PubResult :=
  ⟨none, none, none, none⟩

/-- From `scholar.Author` (dataclass). -/
structure Author where
  name : String
  affiliation : Option String
  email_domain : Option String
  citations : Int
  h_index : Int
  i10_index : Int
  interests : List String
  scholar_id : Option String

/-- An upstream `scholarly` author record (after `fill`): only the keys the
mapping reads, each possibly absent. -/
structure AuthorResult where
  name : Option String
  affiliation : Option String
  email_domain : Option String
  citedby : Option Int
  hindex : Option Int
  i10index : Option Int
  interests : Option (List String)
  scholar_id : Option String

/-- From `scholar.get_author_details` lines 248-257 (also the mapping step of
`search_authors`): build an `Author` with the source's `.get` defaults. -/
def mkAuthor (result : AuthorResult) : Author :=
  ⟨result.name.getD "Unknown",
    result.affiliation,
    result.email_domain,
    result.citedby.getD 0,
    result.hindex.getD 0,
    result.i10index.getD 0,
    result.interests.getD [],
    result.scholar_id⟩

/-- From `scholar.get_author_details` lines 244-261: the composed upstream
lookup (`search_author_id` then `fill`) is modelled by an `Except` value; the
`try/except` converts any fault into `None`. -/
def get_author_details (lookup : Except String AuthorResult) : Option Author :=
  match lookup with
  | Except.error _ => none
  | Except.ok result => some (mkAuthor result)

/-- A concrete upstream author record with every key absent, used as a
witness input. -/
def authR0 : AuthorResult :=
  ⟨none, none, none, none, none, none, none, none⟩

theorem foldl_exclusions (l : List String) (q : String) :
    l.foldl (fun acc term => acc ++ " -" ++ term) q = q ++ exclusionsSuffix l := by
  induction l generalizing q with
  | nil => simp [exclusionsSuffix, strJoin, String.append_empty]
  | cons t rest ih =>
    rw [List.foldl_cons, ih]
    simp [exclusionsSuffix, strJoin, String.append_assoc]

/-- Claim C1: `build_query` assembles its output in a fixed order — the
terms/phrases group first, then the literal ` intitle:"<text>"` suffix when a
(non-empty) intitle is given, then one literal ` -<term>` suffix per exclusion
term, simply concatenated; moreover `build_query(["A"]) = "A"`,
`build_query(["A","B"]) = "(A OR B)"` and
`build_query(["AI"], exclude_terms=["x","y"]) = "AI -x -y"`. -/
theorem build_query_fixed_order (ts ps ex : List String) (t : String) :
    build_query ts ps ex none = termsPhrasesPart ts ps ++ exclusionsSuffix ex ∧
    (t ≠ "" →
      build_query ts ps ex (some t) =
        termsPhrasesPart ts ps ++ " intitle:\"" ++ t ++ "\"" ++ exclusionsSuffix ex) ∧
    build_query ["A"] [] [] none = "A" ∧
    build_query ["A", "B"] [] [] none = "(A OR B)" ∧
    build_query ["AI"] [] ["x", "y"] none = "AI -x -y" := by
  refine ⟨?_, ?_, by decide, by decide, by decide⟩
  · simp [build_query, foldl_exclusions]
  · intro ht
    simp [build_query, ht, foldl_exclusions]

theorem build_query_fixed_order_witness :
    build_query ["AI"] [] ["x"] (some "ML") =
      termsPhrasesPart ["AI"] [] ++ " intitle:\"" ++ "ML" ++ "\"" ++ exclusionsSuffix ["x"] :=
  (build_query_fixed_order ["AI"] [] ["x"] "ML").2.1 (by decide)

/-- Claim C2, counterexample: the phrase `"a\tb"` contains whitespace (a tab)
yet `build_query` does not wrap it in double quotes — the source quotes only
on a space character (`" " in phrase`), not on arbitrary whitespace. -/
theorem build_query_whitespace_quoting_cex :
    ("a\tb".data.any Char.isWhitespace = true) ∧
    build_query ["A"] ["a\tb"] [] none = "A AND a\tb" ∧
    build_query ["A"] ["a\tb"] [] none ≠ "A AND \"a\tb\"" := by
  refine ⟨by decide, by decide, by decide⟩

/-- Claim C2 as amended: an exact phrase is wrapped in double quotes if and
only if it contains a space character; the phrases and the term group are
`" AND "`-joined when more than one part exists, a single part is used with
no `AND` literal, and `build_query(["HRM"], exact_phrases=["job satisfaction"])`
is `'HRM AND "job satisfaction"'`. -/
theorem build_query_phrase_quoting (p t : String) (ts ps : List String) :
    (strContainsChar p ' ' = true → quoteIfSpace p = "\"" ++ p ++ "\"") ∧
    (strContainsChar p ' ' = false → quoteIfSpace p = p) ∧
    build_query [] [p] [] none = quoteIfSpace p ∧
    build_query [t] [] [] none = t ∧
    (ts ≠ [] → ps ≠ [] →
      build_query ts ps [] none = joinSep " AND " (queryParts ts ps)) ∧
    build_query ["HRM"] ["job satisfaction"] [] none = "HRM AND \"job satisfaction\"" := by
  refine ⟨?_, ?_, ?_, ?_, ?_, by decide⟩
  · intro h
    simp [quoteIfSpace, h]
  · intro h
    simp [quoteIfSpace, h]
  · simp [build_query, termsPhrasesPart, queryParts, strJoin, String.append_empty]
  · simp [build_query, termsPhrasesPart, queryParts, strJoin, String.append_empty]
  · intro hts hps
    have hlen : 1 < (queryParts ts ps).length := by
      cases ts with
      | nil => exact absurd rfl hts
      | cons a ts' =>
        cases ps with
        | nil => exact absurd rfl hps
        | cons q ps' => cases ts' <;> simp [queryParts]
    simp [build_query, termsPhrasesPart, hlen]

theorem build_query_phrase_quoting_witness :
    quoteIfSpace "job satisfaction" = "\"" ++ "job satisfaction" ++ "\"" ∧
    quoteIfSpace "AI" = "AI" ∧
    build_query ["HRM"] ["job satisfaction"] [] none =
      joinSep " AND " (queryParts ["HRM"] ["job satisfaction"]) :=
  ⟨(build_query_phrase_quoting "job satisfaction" "t" [] []).1 (by decide),
   (build_query_phrase_quoting "AI" "t" [] []).2.1 (by decide),
   (build_query_phrase_quoting "p" "t" ["HRM"] ["job satisfaction"]).2.2.2.2.1
     (by decide) (by decide)⟩

/-- Claim C3: for the Book with single author "Jane Q. Public", published
date "2020-05-01", publisher "ACME" and title "Title", the APA citation is
`"Public, J. Q. (2020). Title. ACME."` — the last space-separated token is
the surname, each preceding token contributes `<first letter>.` (initials
space-separated), and the year is the first 4 characters of the published
date. -/
theorem apa_citation_round_trip :
    bookJane.cite "apa" = Except.ok "Public, J. Q. (2020). Title. ACME." ∧
    fmtAuthorApa "Jane Q. Public" = "Public, J. Q." ∧
    bookJane.year = "2020" :=
  ⟨by rfl, by decide, by decide⟩

/-- Claim C4: with 3+ authors the APA author string is the formatted authors
`", "`-joined with the literal `", & "` before the last, while Harvard
`", "`-joins them with a final `" and "` (no preceding comma); with exactly
two authors APA joins with `" & "` and Harvard with plain `" and "`. -/
theorem author_join_patterns (b : Book) (x y z : String) (rest : List String) :
    (b.authors = x :: y :: z :: rest →
      b.format_authors_apa =
        joinSep ", " ((b.authors.map fmtAuthorApa).dropLast) ++ ", & " ++
          (b.authors.map fmtAuthorApa).getLastD "" ∧
      b.format_authors_harvard =
        joinSep ", " ((b.authors.map fmtAuthorHarvard).dropLast) ++ " and " ++
          (b.authors.map fmtAuthorHarvard).getLastD "") ∧
    (b.authors = [x, y] →
      b.format_authors_apa = fmtAuthorApa x ++ " & " ++ fmtAuthorApa y ∧
      b.format_authors_harvard = fmtAuthorHarvard x ++ " and " ++ fmtAuthorHarvard y) := by
  constructor
  · intro h
    constructor <;>
      simp [Book.format_authors_apa, Book.format_authors_harvard, h]
  · intro h
    constructor <;>
      simp [Book.format_authors_apa, Book.format_authors_harvard, h]

theorem author_join_patterns_witness :
    (bookTrio.format_authors_apa =
        joinSep ", " ((bookTrio.authors.map fmtAuthorApa).dropLast) ++ ", & " ++
          (bookTrio.authors.map fmtAuthorApa).getLastD "" ∧
      bookTrio.format_authors_harvard =
        joinSep ", " ((bookTrio.authors.map fmtAuthorHarvard).dropLast) ++ " and " ++
          (bookTrio.authors.map fmtAuthorHarvard).getLastD "") ∧
    (bookDuo.format_authors_apa = fmtAuthorApa "Ann A. Alpha" ++ " & " ++ fmtAuthorApa "Bob B. Beta" ∧
      bookDuo.format_authors_harvard =
        fmtAuthorHarvard "Ann A. Alpha" ++ " and " ++ fmtAuthorHarvard "Bob B. Beta") :=
  ⟨(author_join_patterns bookTrio "Ann A. Alpha" "Bob B. Beta" "Carl C. Gamma" []).1 rfl,
   (author_join_patterns bookDuo "Ann A. Alpha" "Bob B. Beta" "" []).2 rfl⟩

/-- Claim C5: for every Book the MLA and Chicago citations follow the
template `{authors}{sep}{title}. {publisher}, {year}.` where `sep` is a
single space exactly when the formatted author string ends in a period and
`". "` otherwise, and the publisher defaults to `"Publisher unknown"` when
absent. -/
theorem mla_chicago_template (b : Book) :
    b.cite_mla =
      b.format_authors_mla ++
        (if endsWithPeriod b.format_authors_mla then " " else ". ") ++
        b.title ++ ". " ++ b.publisherOrDefault ++ ", " ++ b.year ++ "." ∧
    b.cite_chicago =
      b.format_authors_chicago ++
        (if endsWithPeriod b.format_authors_chicago then " " else ". ") ++
        b.title ++ ". " ++ b.publisherOrDefault ++ ", " ++ b.year ++ "." ∧
    (b.publisher = none → b.publisherOrDefault = "Publisher unknown") := by
  refine ⟨rfl, rfl, ?_⟩
  intro h
  simp [Book.publisherOrDefault, h]

theorem mla_chicago_template_witness :
    bookTrio.cite_mla =
      bookTrio.format_authors_mla ++
        (if endsWithPeriod bookTrio.format_authors_mla then " " else ". ") ++
        bookTrio.title ++ ". " ++ bookTrio.publisherOrDefault ++ ", " ++ bookTrio.year ++ "." ∧
    bookTrio.publisherOrDefault = "Publisher unknown" :=
  ⟨(mla_chicago_template bookTrio).1, (mla_chicago_template bookTrio).2.2 rfl⟩

/-- Claim C7: a style whose lowercase form is not one of the four valid ones
makes `cite` fail with a `ValueError` message naming the style and listing
the four options; a style whose lowercase form is valid yields a citation
string. -/
theorem cite_style_validation (b : Book) (style : String) :
    (pyLower style ∉ validStyles →
      b.cite style =
        Except.error ("Unsupported style: " ++ style ++ ". Use: apa, mla, chicago, harvard")) ∧
    (pyLower style ∈ validStyles → ∃ c, b.cite style = Except.ok c) := by
  constructor
  · intro h
    simp [validStyles] at h
    obtain ⟨h1, h2, h3, h4⟩ := h
    simp [Book.cite, h1, h2, h3, h4]
  · intro h
    simp [validStyles] at h
    rcases h with h | h | h | h <;> simp [Book.cite, h]

theorem cite_style_validation_witness :
    bookJane.cite "bogus" =
      Except.error ("Unsupported style: " ++ "bogus" ++ ". Use: apa, mla, chicago, harvard") ∧
    (∃ c, bookJane.cite "APA" = Except.ok c) :=
  ⟨(cite_style_validation bookJane "bogus").1 (by decide),
   (cite_style_validation bookJane "APA").2 (by decide)⟩

/-- Claim C9: for every Book the Chicago citation equals the MLA citation,
and the Chicago author formatter agrees with the MLA one. -/
theorem chicago_equals_mla (b : Book) :
    b.cite_chicago = b.cite_mla ∧ b.format_authors_chicago = b.format_authors_mla :=
  ⟨rfl, rfl⟩

/-- Claim C10: for every Book and every style whose lowercase form is one of
the four valid style names, `cite` is case-insensitive:
`b.cite style = b.cite (lowercase style)`. -/
theorem cite_case_insensitive (b : Book) (style : String)
    (h : pyLower style ∈ validStyles) : b.cite style = b.cite (pyLower style) := by
  simp [validStyles] at h
  rcases h with h | h | h | h <;>
    rw [h] <;>
    simp [Book.cite, h,
      (show pyLower "apa" = "apa" by decide), (show pyLower "mla" = "mla" by decide),
      (show pyLower "chicago" = "chicago" by decide),
      (show pyLower "harvard" = "harvard" by decide)]

theorem cite_case_insensitive_witness :
    bookJane.cite "APA" = bookJane.cite (pyLower "APA") :=
  cite_case_insensitive bookJane "APA" (by decide)

theorem searchPubsLoop_spec (l : List PubResult) (limit : Nat) : ∀ count : Nat,
    (searchPubsLoop l limit count).1.length = min (limit - count) l.length ∧
    (searchPubsLoop l limit count).2 = min (limit - count + 1) l.length := by
  induction l with
  | nil => intro count; simp [searchPubsLoop]
  | cons r rest ih =>
    intro count
    by_cases h : count ≥ limit
    · simp only [searchPubsLoop, if_pos h]
      constructor
      · simp; omega
      · simp; omega
    · simp only [searchPubsLoop, if_neg h]
      obtain ⟨ih1, ih2⟩ := ih (count + 1)
      constructor
      · simp only [List.length_cons, ih1]; omega
      · simp only [List.length_cons, ih2]; omega

/-- Claim C6: `search_publications` yields exactly `min limit n` records from
`n` upstream items (3 records from 10 items at limit 3), and it stops
consuming the upstream iterator once the limit is reached — the iterator is
not fully drained beyond that point. -/
theorem search_publications_limit (results : List PubResult) (limit : Nat) :
    (search_publications results limit).1.length = min limit results.length ∧
    (limit + 1 < results.length →
      (search_publications results limit).2 < results.length) ∧
    (results.length = 10 → limit = 3 →
      (search_publications results limit).1.length = 3 ∧
      (search_publications results limit).2 < results.length) := by
  obtain ⟨h1, h2⟩ := searchPubsLoop_spec results limit 0
  refine ⟨?_, ?_, ?_⟩
  · simpa using h1
  · intro h
    simp only [search_publications, h2]
    omega
  · intro hn hl
    subst hl
    constructor
    · simp only [search_publications, h1, hn]
      omega
    · simp only [search_publications, h2, hn]
      omega

theorem search_publications_limit_witness :
    (search_publications (List.replicate 10 pubR0) 3).1.length = 3 ∧
    (search_publications (List.replicate 10 pubR0) 3).2 <
      (List.replicate 10 pubR0).length :=
  (search_publications_limit (List.replicate 10 pubR0) 3).2.2 (by decide) rfl

/-- Claim C8: `get_author_details` returns `none` whenever the upstream
lookup raises any fault, and on success returns an `Author` whose numeric
fields default to 0 and whose list fields default to empty when absent from
the response. -/
theorem get_author_details_faults (e : String) (r : AuthorResult) :
    get_author_details (Except.error e) = none ∧
    get_author_details (Except.ok r) = some (mkAuthor r) ∧
    (r.citedby = none → (mkAuthor r).citations = 0) ∧
    (r.hindex = none → (mkAuthor r).h_index = 0) ∧
    (r.i10index = none → (mkAuthor r).i10_index = 0) ∧
    (r.interests = none → (mkAuthor r).interests = []) := by
  refine ⟨rfl, rfl, ?_, ?_, ?_, ?_⟩ <;> intro h <;> simp [mkAuthor, h]

theorem get_author_details_faults_witness :
    get_author_details (Except.error "boom") = none ∧
    get_author_details (Except.ok authR0) = some (mkAuthor authR0) ∧
    (mkAuthor authR0).citations = 0 ∧
    (mkAuthor authR0).h_index = 0 ∧
    (mkAuthor authR0).i10_index = 0 ∧
    (mkAuthor authR0).interests = [] :=
  ⟨(get_author_details_faults "boom" authR0).1,
   (get_author_details_faults "boom" authR0).2.1,
   (get_author_details_faults "boom" authR0).2.2.1 rfl,
   (get_author_details_faults "boom" authR0).2.2.2.1 rfl,
   (get_author_details_faults "boom" authR0).2.2.2.2.1 rfl,
   (get_author_details_faults "boom" authR0).2.2.2.2.2 rfl⟩
